import Mathlib

/-!
Verification development for the `european_call_option.ipynb` homework notebook.

The notebook contains two code cells: one binding nine model parameters and an
empty cell left as an exercise.  The Monte Carlo pricing routine itself is not
implemented in the repository, so it is modelled here from the specification
(path simulator of §4.1, aggregator of §4.2, validation of §7) over the real
numbers, with the random innovations passed in explicitly as sequences.
The parameter cell and the cell structure of the notebook are embedded
directly from the source.
-/

namespace EuropeanCall

/-- Model parameters of the exercise (spec §3): discount factor `β`, drift `μ`,
initial price `S0`, initial log-volatility `h0`, strike `K`, horizon `n`,
volatility persistence `ρ`, volatility shock scale `ν`, sample count `M`. -/
structure Params where
  β : ℝ
  μ : ℝ
  S0 : ℝ
  h0 : ℝ
  K : ℝ
  n : ℤ
  ρ : ℝ
  ν : ℝ
  M : ℤ

/-- Modelled from the spec: the repository's implementation cell is empty, so
one step of the §4.1 path simulator is modelled from the spec's algorithm.
The state is the pair `(S_t, h_t)`; the innovations are `(ξ_{t+1}, η_{t+1})`.
The step uses `σ_t = exp h_t` (the log-volatility before its update) for the
log-return and then updates `h_{t+1} = ρ·h_t + ν·η_{t+1}`. -/
noncomputable def stepState (p : Params) (st : ℝ × ℝ) (inn : ℝ × ℝ) : ℝ × ℝ :=
  (st.1 * Real.exp (p.μ + Real.exp st.2 * inn.1), p.ρ * st.2 + p.ν * inn.2)

/-- Modelled from the spec: the §4.1 path simulator's state after `t` steps,
started from `(S0, h0)`, consuming the innovation sequences `ξ` and `η`
(step `t` draws `ξ (t+1)` and `η (t+1)`, matching the spec's indexing). -/
noncomputable def simPath (p : Params) (ξ η : ℕ → ℝ) : ℕ → ℝ × ℝ
  | 0 => (p.S0, p.h0)
  | t + 1 => stepState p (simPath p ξ η t) (ξ (t + 1), η (t + 1))

/-- Modelled from the spec: the §4.1 path simulator returns the terminal price
`S_n`, the first component of the state after `n` steps. -/
noncomputable def simulate_path (p : Params) (ξ η : ℕ → ℝ) : ℝ :=
  (simPath p ξ η p.n.toNat).1

/-- Modelled from the spec: the log-volatility recursion `h_0 = h0`,
`h_{t+1} = ρ·h_t + ν·η_{t+1}` of §4.1, stated on its own for closed-form
comparison with the simulator's state. -/
noncomputable def hvol (p : Params) (η : ℕ → ℝ) : ℕ → ℝ
  | 0 => p.h0
  | t + 1 => p.ρ * hvol p η t + p.ν * η (t + 1)

/-- Modelled from the spec: the §4.2 aggregator's running payoff sum over the
first `m` paths, accumulating `max (S_n^i − K) 0` path by path; path `i`
consumes the innovation sequences `ξ i` and `η i`. -/
noncomputable def payoffSum (p : Params) (ξ η : ℕ → ℕ → ℝ) : ℕ → ℝ
  | 0 => 0
  | m + 1 => payoffSum p ξ η m + max (simulate_path p (ξ m) (η m) - p.K) 0

/-- Modelled from the spec: the §4.2 Monte Carlo aggregator
`price_option(β, μ, S0, h0, K, n, ρ, ν, M)`: average the payoffs of `M`
simulated paths and discount by `β^n`. -/
noncomputable def price_option (p : Params) (ξ η : ℕ → ℕ → ℝ) : ℝ :=
  p.β ^ p.n.toNat * (payoffSum p ξ η p.M.toNat / (p.M : ℝ))

/-- Modelled from the spec: the single error condition of §7. -/
inductive PriceError where
  | invalidParameter

/-- Modelled from the spec: §7's validating entry point, failing with
`InvalidParameter` when `M < 1`, `n < 0`, `S0 ≤ 0` or `K < 0`, and otherwise
returning the estimate. -/
noncomputable def price_option_checked (p : Params) (ξ η : ℕ → ℕ → ℝ) :
    Except PriceError ℝ :=
  if p.M < 1 ∨ p.n < 0 ∨ p.S0 ≤ 0 ∨ p.K < 0 then
    Except.error PriceError.invalidParameter
  else
    Except.ok (price_option p ξ η)

/-- The literal parameter values bound by the notebook's parameter cell
(cell 7 of the source): `β = 0.96`, `μ = 0.005`, `S0 = 10`, `h0 = 0`,
`K = 100`, `n = 10`, `ρ = 0.5`, `ν = 0.01`, `M = 5_000_000`. -/
noncomputable def defaultParams : Params :=
  ⟨0.96, 0.005, 10, 0, 100, 10, 0.5, 0.01, 5000000⟩

/-- A statement of the notebook's Python code cells, for the purpose of
describing what the source defines: an assignment of a numeric literal to a
name, or a function definition introducing a name. -/
inductive PyStmt where
  | assign (name : String) (value : ℚ)
  | funcDef (name : String)

/-- Whether a statement is a plain assignment. -/
def isAssign : PyStmt → Bool
  | .assign _ _ => true
  | .funcDef _ => false

/-- The names of the functions defined by a list of statements. -/
def functionNames : List PyStmt → List String
  | [] => []
  | .funcDef f :: rest => f :: functionNames rest
  | .assign _ _ :: rest => functionNames rest

/-- The names assigned by a list of statements. -/
def assignedNames : List PyStmt → List String
  | [] => []
  | .assign a _ :: rest => a :: assignedNames rest
  | .funcDef _ :: rest => assignedNames rest

/-- The notebook's parameter cell (cell 7 of the source), statement by
statement. -/
def paramCell : List PyStmt :=
  [.assign "β" 0.96, .assign "μ" 0.005, .assign "S0" 10, .assign "h0" 0,
   .assign "K" 100, .assign "n" 10, .assign "ρ" 0.5, .assign "ν" 0.01,
   .assign "M" 5000000]

/-- The notebook's implementation cell (cell 9 of the source): it is empty. -/
def implCell : List PyStmt := []

/-- The notebook's code cells in order: the parameter cell and the empty
implementation cell are its only code cells. -/
def notebookCodeCells : List (List PyStmt) := [paramCell, implCell]

/-- The running payoff sum over the first `m` paths equals the finite sum of
the individual path payoffs. -/
theorem payoffSum_eq_sum (p : Params) (ξ η : ℕ → ℕ → ℝ) (m : ℕ) :
    payoffSum p ξ η m =
      ∑ i ∈ Finset.range m, max (simulate_path p (ξ i) (η i) - p.K) 0 := by
  induction m with
  | zero => simp [payoffSum]
  | succ k ih => rw [payoffSum, ih, Finset.sum_range_succ]

/-- The second component of the simulator's state is exactly the spec's
log-volatility recursion. -/
theorem simPath_snd_eq_hvol (p : Params) (ξ η : ℕ → ℝ) (t : ℕ) :
    (simPath p ξ η t).2 = hvol p η t := by
  induction t with
  | zero => rfl
  | succ k ih => simp [simPath, stepState, hvol, ih]

/-- The first component of the simulator's state after `m` steps is `S0` times
the exponential of the accumulated log-returns. -/
theorem simPath_fst_closed_form (p : Params) (ξ η : ℕ → ℝ) (m : ℕ) :
    (simPath p ξ η m).1 =
      p.S0 * Real.exp (∑ t ∈ Finset.range m,
        (p.μ + Real.exp (hvol p η t) * ξ (t + 1))) := by
  induction m with
  | zero => simp [simPath]
  | succ k ih =>
    rw [Finset.sum_range_succ, Real.exp_add, ← mul_assoc]
    simp only [simPath, stepState]
    rw [ih, simPath_snd_eq_hvol]

/-- Claim C1: for every parameter set with `M ≥ 1` and every family of
innovation sequences, the Monte Carlo aggregator returns
`β^n · (1/M) · Σ_{m < M} max (S_n^m − K) 0`, the payoff of each path being
computed from the path simulator. -/
theorem price_option_monte_carlo_formula (p : Params) (ξ η : ℕ → ℕ → ℝ)
    (hM : 1 ≤ p.M) :
    price_option p ξ η =
      p.β ^ p.n.toNat *
        ((1 / (p.M : ℝ)) * ∑ m ∈ Finset.range p.M.toNat,
          max (simulate_path p (ξ m) (η m) - p.K) 0) := by
  unfold price_option
  rw [payoffSum_eq_sum]
  ring

/-- Witness for C1: the formula instantiated at the notebook's default
parameters and the all-zero innovation sequences. -/
theorem price_option_monte_carlo_formula_witness :
    1 ≤ defaultParams.M ∧
    price_option defaultParams (fun _ _ => 0) (fun _ _ => 0) =
      defaultParams.β ^ defaultParams.n.toNat *
        ((1 / (defaultParams.M : ℝ)) * ∑ m ∈ Finset.range defaultParams.M.toNat,
          max (simulate_path defaultParams (fun _ => 0) (fun _ => 0)
            - defaultParams.K) 0) :=
  ⟨by norm_num [defaultParams],
   price_option_monte_carlo_formula defaultParams (fun _ _ => 0) (fun _ _ => 0)
     (by norm_num [defaultParams])⟩

/-- Claim C2: for every parameter set and all innovation sequences, the path
simulator's log-volatility state follows `h_0 = h0`,
`h_{t+1} = ρ·h_t + ν·η_{t+1}`, and the returned terminal price is
`S_n = S0 · exp (Σ_{t<n} (μ + exp(h_t)·ξ_{t+1}))`: the volatility used at
step `t` is `exp(h_t)`, the log-volatility value before its step-`(t+1)`
update. -/
theorem simulate_path_closed_form (p : Params) (ξ η : ℕ → ℝ) :
    (∀ t, (simPath p ξ η t).2 = hvol p η t) ∧
    simulate_path p ξ η =
      p.S0 * Real.exp (∑ t ∈ Finset.range p.n.toNat,
        (p.μ + Real.exp (hvol p η t) * ξ (t + 1))) :=
  ⟨simPath_snd_eq_hvol p ξ η, simPath_fst_closed_form p ξ η p.n.toNat⟩

/-- Claim C4: the notebook's literal default parameter values are exactly
those the spec's external interface states: `β=0.96`, `μ=0.005`, `S0=10`,
`h0=0`, `K=100`, `n=10`, `ρ=0.5`, `ν=0.01`, `M=5,000,000`. -/
theorem defaultParams_eq_spec_values :
    defaultParams.β = 0.96 ∧ defaultParams.μ = 0.005 ∧ defaultParams.S0 = 10 ∧
    defaultParams.h0 = 0 ∧ defaultParams.K = 100 ∧ defaultParams.n = 10 ∧
    defaultParams.ρ = 0.5 ∧ defaultParams.ν = 0.01 ∧
    defaultParams.M = 5000000 :=
  ⟨rfl, rfl, rfl, rfl, rfl, rfl, rfl, rfl, rfl⟩

/-- Claim C5: the validating entry point fails, and fails with the
`InvalidParameter` condition, exactly when `M < 1`, `n < 0`, `S0 ≤ 0` or
`K < 0`; on every other input it returns the estimate (in the real-number
model no other failure can occur). -/
theorem price_option_checked_validation (p : Params) (ξ η : ℕ → ℕ → ℝ) :
    (price_option_checked p ξ η = Except.error PriceError.invalidParameter ↔
      (p.M < 1 ∨ p.n < 0 ∨ p.S0 ≤ 0 ∨ p.K < 0)) ∧
    (price_option_checked p ξ η = Except.ok (price_option p ξ η) ↔
      ¬(p.M < 1 ∨ p.n < 0 ∨ p.S0 ≤ 0 ∨ p.K < 0)) := by
  by_cases h : p.M < 1 ∨ p.n < 0 ∨ p.S0 ≤ 0 ∨ p.K < 0 <;>
    simp [price_option_checked, h]

/-- The running payoff sum is non-negative: every accumulated payoff is a
`max` with `0`. -/
theorem payoffSum_nonneg (p : Params) (ξ η : ℕ → ℕ → ℝ) (m : ℕ) :
    0 ≤ payoffSum p ξ η m := by
  induction m with
  | zero => simp [payoffSum]
  | succ k ih => exact add_nonneg ih (le_max_right _ _)

/-- Claim C7: for every parameter set with `β > 0` and every realization of
the innovations, the returned estimate is non-negative. -/
theorem price_option_nonneg (p : Params) (ξ η : ℕ → ℕ → ℝ) (hβ : 0 < p.β) :
    0 ≤ price_option p ξ η := by
  unfold price_option
  rcases le_or_lt (p.M : ℝ) 0 with hM | hM
  · have hM0 : p.M.toNat = 0 := by
      have hMZ : p.M ≤ 0 := by exact_mod_cast hM
      exact Int.toNat_of_nonpos hMZ
    simp [hM0, payoffSum]
  · exact mul_nonneg (pow_nonneg hβ.le _)
      (div_nonneg (payoffSum_nonneg p ξ η _) hM.le)

/-- Witness for C7: the estimate at the default parameters with all-zero
innovations is non-negative. -/
theorem price_option_nonneg_witness :
    0 < defaultParams.β ∧
    0 ≤ price_option defaultParams (fun _ _ => 0) (fun _ _ => 0) :=
  ⟨by norm_num [defaultParams],
   price_option_nonneg defaultParams (fun _ _ => 0) (fun _ _ => 0)
     (by norm_num [defaultParams])⟩

/-- Changing only the strike leaves the path simulator's state unchanged: the
strike is not consulted during simulation. -/
theorem simPath_update_strike (p : Params) (c : ℝ) (ξ η : ℕ → ℝ) (t : ℕ) :
    simPath {p with K := c} ξ η t = simPath p ξ η t := by
  induction t with
  | zero => rfl
  | succ k ih => simp [simPath, stepState, ih]

/-- Changing only the strike leaves the simulated terminal price unchanged. -/
theorem simulate_path_update_strike (p : Params) (c : ℝ) (ξ η : ℕ → ℝ) :
    simulate_path {p with K := c} ξ η = simulate_path p ξ η := by
  unfold simulate_path
  rw [simPath_update_strike]

/-- Raising the strike can only lower each accumulated payoff, hence the
running payoff sum. -/
theorem payoffSum_anti_strike (p : Params) (K1 K2 : ℝ) (ξ η : ℕ → ℕ → ℝ)
    (hK : K1 ≤ K2) (m : ℕ) :
    payoffSum {p with K := K2} ξ η m ≤ payoffSum {p with K := K1} ξ η m := by
  induction m with
  | zero => exact le_refl 0
  | succ k ih =>
    simp only [payoffSum, simulate_path_update_strike]
    exact add_le_add ih
      (max_le_max (sub_le_sub_left hK _) (le_refl 0))

/-- Claim C6: holding all other parameters and all random draws fixed, with a
non-negative discount factor, raising the strike from `K1` to `K2 ≥ K1` does
not increase the estimate. -/
theorem price_option_anti_strike (p : Params) (K1 K2 : ℝ) (ξ η : ℕ → ℕ → ℝ)
    (hβ : 0 ≤ p.β) (hK : K1 ≤ K2) :
    price_option {p with K := K2} ξ η ≤ price_option {p with K := K1} ξ η := by
  show p.β ^ p.n.toNat * (payoffSum {p with K := K2} ξ η p.M.toNat / (p.M : ℝ))
      ≤ p.β ^ p.n.toNat * (payoffSum {p with K := K1} ξ η p.M.toNat / (p.M : ℝ))
  apply mul_le_mul_of_nonneg_left _ (pow_nonneg hβ _)
  rcases le_or_lt (p.M : ℝ) 0 with hM | hM
  · have hM0 : p.M.toNat = 0 := by
      have hMZ : p.M ≤ 0 := by exact_mod_cast hM
      exact Int.toNat_of_nonpos hMZ
    simp [hM0, payoffSum]
  · exact div_le_div_of_nonneg_right
      (payoffSum_anti_strike p K1 K2 ξ η hK p.M.toNat) hM.le

/-- Witness for C6: at the default parameters with all-zero innovations, the
estimate at strike `120` is at most the estimate at strike `100`. -/
theorem price_option_anti_strike_witness :
    0 ≤ defaultParams.β ∧ (100 : ℝ) ≤ 120 ∧
    price_option {defaultParams with K := 120} (fun _ _ => 0) (fun _ _ => 0) ≤
      price_option {defaultParams with K := 100} (fun _ _ => 0) (fun _ _ => 0) :=
  ⟨by norm_num [defaultParams], by norm_num,
   price_option_anti_strike defaultParams 100 120 (fun _ _ => 0) (fun _ _ => 0)
     (by norm_num [defaultParams]) (by norm_num)⟩

/-- Claim C8: for every parameter set with `S0 > 0`, every realization of the
innovations and every time step, the simulated price stays strictly
positive. -/
theorem simPath_price_pos (p : Params) (ξ η : ℕ → ℝ) (hS0 : 0 < p.S0) :
    ∀ t, 0 < (simPath p ξ η t).1 := by
  intro t
  induction t with
  | zero => exact hS0
  | succ k ih =>
    simp only [simPath, stepState]
    exact mul_pos ih (Real.exp_pos _)

/-- Witness for C8: with the default parameters and all-zero innovations the
price after ten steps is strictly positive. -/
theorem simPath_price_pos_witness :
    0 < defaultParams.S0 ∧
    0 < (simPath defaultParams (fun _ => 0) (fun _ => 0) 10).1 :=
  ⟨by norm_num [defaultParams],
   simPath_price_pos defaultParams (fun _ => 0) (fun _ => 0)
     (by norm_num [defaultParams]) 10⟩

/-- Claim C9: the nine default values bound in the notebook's parameter cell
satisfy the data model's constraints (`0 < β ≤ 1`, `S0 > 0`, `K > 0`, `n` a
positive integer, `|ρ| < 1`, `ν ≥ 0`, `M` a positive integer), so on the
default inputs the `InvalidParameter` branch is unreachable and the checked
routine always returns the estimate. -/
theorem defaultParams_satisfy_constraints :
    (0 < defaultParams.β ∧ defaultParams.β ≤ 1) ∧ 0 < defaultParams.S0 ∧
    0 < defaultParams.K ∧ 0 < defaultParams.n ∧ |defaultParams.ρ| < 1 ∧
    0 ≤ defaultParams.ν ∧ 0 < defaultParams.M ∧
    ∀ ξ η, price_option_checked defaultParams ξ η =
      Except.ok (price_option defaultParams ξ η) := by
  refine ⟨⟨by norm_num [defaultParams], by norm_num [defaultParams]⟩,
    by norm_num [defaultParams], by norm_num [defaultParams],
    by norm_num [defaultParams], by rw [abs_lt]; norm_num [defaultParams],
    by norm_num [defaultParams], by norm_num [defaultParams], ?_⟩
  intro ξ η
  rw [price_option_checked, if_neg]
  push_neg
  refine ⟨by norm_num [defaultParams], by norm_num [defaultParams],
    by norm_num [defaultParams], by norm_num [defaultParams]⟩

/-- Claim C10: the notebook contains no implemented algorithmic core: its only
code cells are the parameter cell of nine constant assignments (binding the
nine parameter names) and the empty implementation cell, and no function — in
particular no `price_option` — is defined by the source. -/
theorem notebook_has_no_implementation :
    notebookCodeCells = [paramCell, implCell] ∧ implCell = [] ∧
    paramCell.length = 9 ∧
    (paramCell ++ implCell).all isAssign = true ∧
    functionNames (paramCell ++ implCell) = [] ∧
    assignedNames paramCell = ["β", "μ", "S0", "h0", "K", "n", "ρ", "ν", "M"] :=
  ⟨rfl, rfl, rfl, rfl, rfl, rfl⟩

end EuropeanCall
